import Mathlib

/-!
Verification of the audio assembly / chaptering engine (`src/audio_processor.py`).

The embedding models `assemble_podcast` and `_create_ffmpeg_metadata_file`:

* A `Segment` is one entry of the `segments` list of dicts, together with the
  facts about the filesystem that the code observes for it: whether
  `os.path.exists(audio_path)` holds, and what `AudioSegment.from_file`
  yields for the file (`some n` = decoded audio of length `n` ms, `none` =
  the load raises, e.g. `CouldntDecodeError`).  Loading is deterministic:
  the fallback duration probe and the main load see the same result.
* The in-memory pydub timeline is modelled as a list of clips measured in
  milliseconds (`combined_audio`), together with the running cursor
  `current_position_ms` and the accumulating `chapters_for_metadata` list.
* The stages after the merge loop (mp3 export, metadata file write, the
  ffmpeg subprocess) are modelled by an `Env` describing the outcomes the
  environment can produce, and the scratch directory as the list of files
  of this run that exist when the call returns.
-/

namespace AudioProcessor

/-- One input segment dict plus the filesystem facts the code observes for it.
`source`, `audio_path`, `duration_ms` model `segment.get(...)` (`none` =
key missing / value `None` / non-int).  `path_exists` models
`os.path.exists(audio_path)`; `decode` models `AudioSegment.from_file`. -/
structure Segment where
  source : Option String
  audio_path : Option String
  path_exists : Bool
  duration_ms : Option Int
  decode : Option Nat
deriving DecidableEq

/-- The check `if not audio_path or not os.path.exists(audio_path)`: the path
is usable iff present, non-empty and existing. -/
def pathOK (s : Segment) : Bool :=
  match s.audio_path with
  | none => false
  | some p => (p != "") && s.path_exists

/-- The check `isinstance(duration_ms, int) and duration_ms > 0`. -/
def durationOK (s : Segment) : Bool :=
  match s.duration_ms with
  | some d => decide (0 < d)
  | none => false

/-- The fallback duration re-probe: `AudioSegment.from_file` succeeds and the
re-measured duration is positive. -/
def fallbackOK (s : Segment) : Bool :=
  match s.decode with
  | some n => decide (0 < n)
  | none => false

/-- A segment passes the pre-load checks (and so reaches the silence append
and the decode attempt) iff its path is usable and its declared duration is
valid or recoverable by the re-probe. -/
def preChecks (s : Segment) : Bool :=
  pathOK s && (durationOK s || fallbackOK s)

/-- A segment loads successfully (produces a chapter) iff it passes the
pre-load checks and the decode in the `try` block does not raise. -/
def loads (s : Segment) : Bool :=
  preChecks s && s.decode.isSome

/-- The decoded length `len(audio_segment)` of a segment, 0 when the load
raises (in which case it never enters the arithmetic). -/
def decodeLen (s : Segment) : Nat :=
  s.decode.getD 0

/-- The chapter title: `segment.get('source', f'Segment {i+1}')`. -/
def segTitle (i : Nat) (s : Segment) : String :=
  s.source.getD ("Segment " ++ toString (i + 1))

/-- One entry of `chapters_for_metadata`. -/
structure Chapter where
  title : String
  start_ms : Nat
  end_ms : Nat
deriving DecidableEq

/-- One pydub clip appended to `combined_audio`, measured in ms. -/
inductive Clip where
  | silence (len : Nat)
  | audio (len : Nat)
deriving DecidableEq

/-- Length in ms of one clip. -/
def clipLen : Clip → Nat
  | .silence n => n
  | .audio n => n

/-- `len(combined_audio)`: total length in ms of the assembled timeline. -/
def timelineLen (t : List Clip) : Nat :=
  (t.map clipLen).sum

/-- The mutable state of the merge loop: `combined_audio`,
`current_position_ms` and `chapters_for_metadata`. -/
structure MergeState where
  timeline : List Clip
  position_ms : Nat
  chapters : List Chapter
deriving DecidableEq

/-- The state before the loop: empty audio, cursor 0, no chapters. -/
def initState : MergeState := ⟨[], 0, []⟩

/-- One iteration of the merge loop for the segment at index `i`:
pre-load checks first (`continue` on failure), then the silence append for
`i > 0`, then the decode attempt — a raise after the silence keeps the
silence committed but emits no chapter. -/
def mergeStep (silence_ms : Nat) (st : MergeState) (i : Nat) (s : Segment) : MergeState :=
  if preChecks s then
    let st1 : MergeState :=
      if 0 < i then
        { st with timeline := st.timeline ++ [Clip.silence silence_ms],
                  position_ms := st.position_ms + silence_ms }
      else st
    match s.decode with
    | none => st1
    | some n =>
        { timeline := st1.timeline ++ [Clip.audio n],
          position_ms := st1.position_ms + n,
          chapters := st1.chapters ++
            [⟨segTitle i s, st1.position_ms, st1.position_ms + n⟩] }
  else st

/-- The merge loop `for i, segment in enumerate(segments)` from index `i`. -/
def mergeLoop (silence_ms : Nat) : Nat → MergeState → List Segment → MergeState
  | _, st, [] => st
  | i, st, s :: rest => mergeLoop silence_ms (i + 1) (mergeStep silence_ms st i s) rest

/-- The whole merge phase of `assemble_podcast` (steps 1 of the source). -/
def mergeSegments (segments : List Segment) (silence_ms : Nat) : MergeState :=
  mergeLoop silence_ms 0 initState segments

/-- The merge phase including its two abort checks: `if not segments: return
None` and `if len(combined_audio) == 0: return None` (the
`AssemblyEmptyError` outcome of the spec). -/
def assembleMerge (segments : List Segment) (silence_ms : Nat) : Option MergeState :=
  if segments.isEmpty then none
  else
    let st := mergeSegments segments silence_ms
    if timelineLen st.timeline = 0 then none else some st

/-- Outcome of the ffmpeg subprocess launch: `FileNotFoundError`, or a run
with a return code and a diagnostic (stderr) stream. -/
inductive FfmpegResult where
  | notFound
  | ran (returncode : Int) (stderr : String)
deriving DecidableEq

/-- The files this run creates in the scratch (output) directory. -/
inductive ScratchFile where
  | concatMp3
  | metadataTxt
  | finalOutput
deriving DecidableEq

/-- The environment outcomes of the post-merge stages: whether the mp3
export succeeds, whether the metadata file write succeeds, what the
ffmpeg invocation does, and — per file — whether an `os.remove` attempt on
it succeeds (`false` models `os.remove` raising `OSError`, which every
cleanup site catches and ignores). -/
structure Env where
  export_ok : Bool
  metadata_ok : Bool
  ffmpeg : FfmpegResult
  remove_ok : ScratchFile → Bool

/-- The distinct exit outcomes of `assemble_podcast`.  In the source every
failure is `return None`; the constructors record which return site fired,
matching the spec's error taxonomy. -/
inductive AssembleOutcome where
  | emptyError
  | exportError
  | metadataError
  | toolMissing
  | transcodeError (stderr : String)
  | success (chapters : List Chapter)
deriving DecidableEq

/-- One removal attempt `try: os.remove(f) except OSError: pass` on the
scratch directory contents: the file disappears only when the OS permits
the removal (`ok f = true`); on `OSError` the file survives and execution
continues. -/
def removeFile (ok : ScratchFile → Bool) (fs : List ScratchFile)
    (f : ScratchFile) : List ScratchFile :=
  if ok f then fs.filter (fun g => g != f) else fs

/-- The cleanup loop
`for f_path in temp_files_to_clean: try: os.remove(f_path) except OSError: pass`
— best-effort: each attempt that raises `OSError` is swallowed and the
file stays behind. -/
def removeAll (ok : ScratchFile → Bool) (fs : List ScratchFile)
    (temps : List ScratchFile) : List ScratchFile :=
  temps.foldl (removeFile ok) fs

/-- Whether an outcome is the success return. -/
def isSuccess : AssembleOutcome → Bool
  | .success _ => true
  | _ => false

/-- `assemble_podcast`: merge phase, mp3 export, metadata file, ffmpeg run,
cleanup.  Returns the outcome and the files of this run remaining in the
scratch directory when the call returns.  `mkstemp` creates the temp file
and registers it in `temp_files_to_clean`; ffmpeg (when found) may write
the final output, which the generic error handler removes again. -/
def assemble_podcast (segments : List Segment) (silence_ms : Nat) (env : Env) :
    AssembleOutcome × List ScratchFile :=
  match assembleMerge segments silence_ms with
  | none => (.emptyError, [])
  | some st =>
    let fs0 : List ScratchFile := [.concatMp3]
    let temps0 : List ScratchFile := [.concatMp3]
    if env.export_ok = false then
      (.exportError, removeAll env.remove_ok fs0 temps0)
    else
      let fs1 := fs0 ++ [.metadataTxt]
      let temps1 := temps0 ++ [.metadataTxt]
      if env.metadata_ok = false then
        (.metadataError, removeAll env.remove_ok fs1 temps1)
      else
        match env.ffmpeg with
        | .notFound => (.toolMissing, removeAll env.remove_ok fs1 temps1)
        | .ran rc stderr =>
          let fs2 := fs1 ++ [.finalOutput]
          if rc ≠ 0 then
            (.transcodeError stderr,
              removeFile env.remove_ok (removeAll env.remove_ok fs2 temps1) .finalOutput)
          else
            (.success st.chapters, removeAll env.remove_ok fs2 temps1)

/-- Python's single-character `str.replace(a, b)`. -/
def pyReplace (s : String) (a b : Char) : String :=
  ⟨s.data.map (fun c => if c = a then b else c)⟩

/-- The title cleaning chain of `_create_ffmpeg_metadata_file`:
`.replace('=', '-').replace(';', ',').replace('#', '-').replace('\\', '-').replace('\n', ' ')`. -/
def sanitizeTitle (t : String) : String :=
  pyReplace (pyReplace (pyReplace (pyReplace (pyReplace t '=' '-') ';' ',') '#' '-') '\\' '-') '\n' ' '

/-- The chapters actually written: those not skipped by the
`if end_ms <= start_ms: continue` guard. -/
def writtenChapters (chapters : List Chapter) : List Chapter :=
  chapters.filter (fun c => decide (c.start_ms < c.end_ms))

/-- The `[CHAPTER]` block written for one retained chapter. -/
def chapterBlock (c : Chapter) : String :=
  "[CHAPTER]\n" ++ "TIMEBASE=1/1000\n" ++ "START=" ++ toString c.start_ms ++ "\n" ++
    "END=" ++ toString c.end_ms ++ "\n" ++ "title=" ++ sanitizeTitle c.title ++ "\n\n"

/-- The full text `_create_ffmpeg_metadata_file` writes, in write order:
header, global title (verbatim), artist, blank line, `[METADATA]` block,
then one block per retained chapter. -/
def metadataContent (chapters : List Chapter) (podcast_title : String) : String :=
  ";FFMETADATA1\n" ++ ("title=" ++ podcast_title ++ "\n") ++
    "artist=Generated Podcast Bot\n" ++ "\n" ++ "[METADATA]\n" ++ "timebase=1/1000\n\n" ++
    String.join ((writtenChapters chapters).map chapterBlock)

/-- The silence the loop commits before the segment at index `i`. -/
def gapLen (silence_ms i : Nat) : Nat :=
  if 0 < i then silence_ms else 0

/-- Total ms one segment at index `i` contributes to cursor and timeline. -/
def segContrib (silence_ms i : Nat) (s : Segment) : Nat :=
  if preChecks s then gapLen silence_ms i + decodeLen s else 0

/-- Total ms a segment list starting at index `i` contributes. -/
def contribSum (silence_ms : Nat) : Nat → List Segment → Nat
  | _, [] => 0
  | i, s :: rest => segContrib silence_ms i s + contribSum silence_ms (i + 1) rest

/-- Chapter list the loop produces from index `i` and cursor `pos`. -/
def buildChapters (silence_ms : Nat) : Nat → Nat → List Segment → List Chapter
  | _, _, [] => []
  | i, pos, s :: rest =>
    if preChecks s then
      match s.decode with
      | none => buildChapters silence_ms (i + 1) (pos + gapLen silence_ms i) rest
      | some n =>
          ⟨segTitle i s, pos + gapLen silence_ms i, pos + gapLen silence_ms i + n⟩ ::
            buildChapters silence_ms (i + 1) (pos + gapLen silence_ms i + n) rest
    else buildChapters silence_ms (i + 1) pos rest

/-! Concrete segments used to instantiate and refute claims.  Each one is a
segment dict plus filesystem facts, named for its role: `segA`/`segB`/`segC`
load with the spec scenario's durations; `segMissing` fails
`os.path.exists`; `segDecodeFail` passes the pre-load checks but raises in
`AudioSegment.from_file`; `segZero` decodes to zero-length audio;
`segMismatch` has declared duration 3000 but decodes to 4200 ms. -/

/-- Segment loading 5000 ms of audio. -/
def segA : Segment := ⟨some "A", some "a.mp3", true, some 5000, some 5000⟩

/-- Segment loading 3000 ms of audio. -/
def segB : Segment := ⟨some "B", some "b.mp3", true, some 3000, some 3000⟩

/-- Segment loading 4000 ms of audio. -/
def segC : Segment := ⟨some "C", some "c.mp3", true, some 4000, some 4000⟩

/-- Segment whose audio file does not exist. -/
def segMissing : Segment := ⟨some "M", some "m.mp3", false, some 3000, some 3000⟩

/-- Segment whose file exists with valid declared duration but whose decode
raises. -/
def segDecodeFail : Segment := ⟨some "D", some "d.mp3", true, some 4000, none⟩

/-- Segment decoding to zero-length audio. -/
def segZero : Segment := ⟨some "Z", some "z.mp3", true, some 3000, some 0⟩

/-- Segment whose declared duration (3000) differs from its decoded
duration (4200). -/
def segMismatch : Segment := ⟨some "W", some "w.mp3", true, some 3000, some 4200⟩

/-- Environment in which every post-merge stage succeeds cleanly and every
removal attempt succeeds. -/
def goodEnv : Env := ⟨true, true, .ran 0 "", fun _ => true⟩

/-- Environment in which ffmpeg exits non-zero and the OS then refuses to
remove the partially written output file (`os.remove` raises `OSError`). -/
def stubbornEnv : Env :=
  ⟨true, true, .ran 1 "boom", fun f => f != ScratchFile.finalOutput⟩

/-- Environment in which the run succeeds but the OS refuses to remove the
temporary concatenated mp3 (`os.remove` raises `OSError`). -/
def badRemoveEnv : Env :=
  ⟨true, true, .ran 0 "", fun f => f != ScratchFile.concatMp3⟩

/-! Helper lemmas about the merge loop. -/

theorem timelineLen_append (a b : List Clip) :
    timelineLen (a ++ b) = timelineLen a + timelineLen b := by
  simp [timelineLen]

theorem mergeStep_position (ms : Nat) (st : MergeState) (i : Nat) (s : Segment) :
    (mergeStep ms st i s).position_ms = st.position_ms + segContrib ms i s := by
  unfold mergeStep segContrib gapLen decodeLen
  by_cases hp : preChecks s = true
  · by_cases hi : 0 < i
    · cases hd : s.decode
      · simp [hp, hi, hd]
      · simp [hp, hi, hd]; omega
    · cases hd : s.decode <;> simp [hp, hi, hd]
  · simp [hp]

theorem mergeStep_timelineLen (ms : Nat) (st : MergeState) (i : Nat) (s : Segment) :
    timelineLen (mergeStep ms st i s).timeline =
      timelineLen st.timeline + segContrib ms i s := by
  unfold mergeStep segContrib gapLen decodeLen
  by_cases hp : preChecks s = true
  · by_cases hi : 0 < i
    · cases hd : s.decode
      · simp [hp, hi, hd, timelineLen_append, timelineLen, clipLen]
      · simp [hp, hi, hd, timelineLen_append, timelineLen, clipLen]
    · cases hd : s.decode <;> simp [hp, hi, hd, timelineLen_append, timelineLen, clipLen]
  · simp [hp]

theorem mergeLoop_position (ms : Nat) (segs : List Segment) :
    ∀ (i : Nat) (st : MergeState),
      (mergeLoop ms i st segs).position_ms = st.position_ms + contribSum ms i segs := by
  induction segs with
  | nil => intro i st; simp [mergeLoop, contribSum]
  | cons s rest ih =>
      intro i st
      rw [mergeLoop, ih, mergeStep_position, contribSum]
      omega

theorem mergeLoop_timelineLen (ms : Nat) (segs : List Segment) :
    ∀ (i : Nat) (st : MergeState),
      timelineLen (mergeLoop ms i st segs).timeline =
        timelineLen st.timeline + contribSum ms i segs := by
  induction segs with
  | nil => intro i st; simp [mergeLoop, contribSum]
  | cons s rest ih =>
      intro i st
      rw [mergeLoop, ih, mergeStep_timelineLen, contribSum]
      omega

theorem mergeLoop_chapters (ms : Nat) (segs : List Segment) :
    ∀ (i : Nat) (st : MergeState),
      (mergeLoop ms i st segs).chapters =
        st.chapters ++ buildChapters ms i st.position_ms segs := by
  induction segs with
  | nil => intro i st; simp [mergeLoop, buildChapters]
  | cons s rest ih =>
      intro i st
      rw [mergeLoop, ih, buildChapters]
      by_cases hp : preChecks s = true
      · by_cases hi : 0 < i
        · cases hd : s.decode <;>
            simp [mergeStep, hp, hi, hd, gapLen, List.append_assoc]
        · cases hd : s.decode <;>
            simp [mergeStep, hp, hi, hd, gapLen, List.append_assoc]
      · simp [mergeStep, hp]

theorem mergeSegments_position (segs : List Segment) (ms : Nat) :
    (mergeSegments segs ms).position_ms = contribSum ms 0 segs := by
  rw [mergeSegments, mergeLoop_position]
  simp [initState]

theorem mergeSegments_timelineLen (segs : List Segment) (ms : Nat) :
    timelineLen (mergeSegments segs ms).timeline = contribSum ms 0 segs := by
  rw [mergeSegments, mergeLoop_timelineLen]
  simp [initState, timelineLen]

theorem mergeSegments_chapters (segs : List Segment) (ms : Nat) :
    (mergeSegments segs ms).chapters = buildChapters ms 0 0 segs := by
  rw [mergeSegments, mergeLoop_chapters]
  simp [initState]

theorem buildChapters_length (ms : Nat) (segs : List Segment) :
    ∀ (i pos : Nat),
      (buildChapters ms i pos segs).length =
        (segs.filter (fun s => loads s)).length := by
  induction segs with
  | nil => intro i pos; simp [buildChapters]
  | cons s rest ih =>
      intro i pos
      rw [buildChapters]
      by_cases hp : preChecks s = true
      · cases hd : s.decode
        · simp [hp, hd, List.filter_cons, loads, ih]
        · simp [hp, hd, List.filter_cons, loads, ih]
      · simp [hp, List.filter_cons, loads, ih]

theorem buildChapters_bounds (ms : Nat) (segs : List Segment) :
    ∀ (i pos : Nat) (c : Chapter), c ∈ buildChapters ms i pos segs →
      pos ≤ c.start_ms ∧ c.start_ms ≤ c.end_ms ∧
        c.end_ms ≤ pos + contribSum ms i segs := by
  induction segs with
  | nil => intro i pos c hc; simp [buildChapters] at hc
  | cons s rest ih =>
      intro i pos c hc
      rw [buildChapters] at hc
      rw [contribSum]
      by_cases hp : preChecks s = true
      · cases hd : s.decode
        · simp [hp, hd] at hc
          have h := ih (i + 1) (pos + gapLen ms i) c hc
          simp [segContrib, hp, hd, decodeLen, gapLen] at h ⊢
          omega
        · simp [hp, hd] at hc
          rcases hc with rfl | hc
          · simp [segContrib, hp, hd, decodeLen, gapLen]
            omega
          · have h := ih (i + 1) (pos + gapLen ms i + _) c hc
            simp [segContrib, hp, hd, decodeLen, gapLen] at h ⊢
            omega
      · simp [hp] at hc
        have h := ih (i + 1) pos c hc
        simp [segContrib, hp] at h ⊢
        omega

theorem buildChapters_split (ms : Nat) (segs : List Segment) :
    ∀ (i pos j : Nat) (hj : j < segs.length),
      loads (segs.get ⟨j, hj⟩) = true →
      ∃ (pre : List Chapter) (posj : Nat),
        buildChapters ms i pos segs =
          pre ++
            ⟨segTitle (i + j) (segs.get ⟨j, hj⟩), posj,
              posj + decodeLen (segs.get ⟨j, hj⟩)⟩ ::
            buildChapters ms (i + j + 1) (posj + decodeLen (segs.get ⟨j, hj⟩))
              (segs.drop (j + 1)) ∧
        pre.length = ((segs.take j).filter (fun s => loads s)).length := by
  induction segs with
  | nil => intro i pos j hj; exact absurd hj (by simp)
  | cons s rest ih =>
      intro i pos j hj hload
      cases j with
      | zero =>
          have hload0 : loads s = true := by simpa using hload
          have hp : preChecks s = true := by
            simp [loads, Bool.and_eq_true] at hload0; exact hload0.1
          obtain ⟨n, hd⟩ : ∃ n, s.decode = some n := by
            simp [loads, Bool.and_eq_true, Option.isSome_iff_exists] at hload0
            exact hload0.2
          refine ⟨[], pos + gapLen ms i, ?_, by simp⟩
          rw [buildChapters]
          simp [hp, hd, decodeLen]
      | succ j' =>
          have hj' : j' < rest.length := by simpa using hj
          have hload' : loads (rest.get ⟨j', hj'⟩) = true := by simpa using hload
          by_cases hp : preChecks s = true
          · cases hd : s.decode with
            | none =>
              obtain ⟨pre', posj', heq, hlen⟩ := ih (i + 1) (pos + gapLen ms i) j' hj' hload'
              refine ⟨pre', posj', ?_, ?_⟩
              · rw [buildChapters]
                simp only [hp, if_true, hd]
                rw [heq]
                have e1 : i + 1 + j' = i + (j' + 1) := by omega
                have e2 : i + 1 + j' + 1 = i + (j' + 1) + 1 := by omega
                simp [e1, e2]
              · simp [List.filter_cons, loads, hp, hd, hlen]
            | some n =>
              obtain ⟨pre', posj', heq, hlen⟩ := ih (i + 1) (pos + gapLen ms i + n) j' hj' hload'
              refine ⟨⟨segTitle i s, pos + gapLen ms i, pos + gapLen ms i + n⟩ :: pre', posj', ?_, ?_⟩
              · rw [buildChapters]
                simp only [hp, if_true, hd]
                rw [heq]
                have e1 : i + 1 + j' = i + (j' + 1) := by omega
                have e2 : i + 1 + j' + 1 = i + (j' + 1) + 1 := by omega
                simp [e1, e2]
              · simp [List.filter_cons, loads, hp, hd, hlen]
          · obtain ⟨pre', posj', heq, hlen⟩ := ih (i + 1) pos j' hj' hload'
            refine ⟨pre', posj', ?_, ?_⟩
            · rw [buildChapters]
              simp only [hp, if_false, Bool.false_eq_true]
              rw [heq]
              have e1 : i + 1 + j' = i + (j' + 1) := by omega
              have e2 : i + 1 + j' + 1 = i + (j' + 1) + 1 := by omega
              simp [e1, e2]
            · simp [List.filter_cons, loads, hp, hlen]

theorem assembleMerge_some (segs : List Segment) (ms : Nat) (st : MergeState)
    (h : assembleMerge segs ms = some st) : st = mergeSegments segs ms := by
  unfold assembleMerge at h
  by_cases he : segs.isEmpty
  · simp [he] at h
  · by_cases hz : timelineLen (mergeSegments segs ms).timeline = 0
    · simp [he, hz] at h
    · simp [he, hz] at h
      exact h.symm

theorem assemble_ne_empty (segs : List Segment) (ms : Nat) (env : Env) (st : MergeState)
    (h : assembleMerge segs ms = some st) :
    (assemble_podcast segs ms env).1 ≠ AssembleOutcome.emptyError := by
  unfold assemble_podcast
  rw [h]
  by_cases h1 : env.export_ok = false
  · simp [h1]
  · by_cases h2 : env.metadata_ok = false
    · simp [h1, h2]
    · cases hf : env.ffmpeg with
      | notFound => simp [h1, h2, hf]
      | ran rc stderr =>
          by_cases h3 : rc = 0
          · simp [h1, h2, hf, h3]
          · simp [h1, h2, hf, h3]

theorem assemble_success_chapters (segs : List Segment) (ms : Nat) (env : Env)
    (chs : List Chapter)
    (h : (assemble_podcast segs ms env).1 = AssembleOutcome.success chs) :
    chs = (mergeSegments segs ms).chapters := by
  cases hm : assembleMerge segs ms with
  | none => simp [assemble_podcast, hm] at h
  | some st =>
      have hst := assembleMerge_some segs ms st hm
      simp only [assemble_podcast, hm] at h
      by_cases h1 : env.export_ok = false
      · simp [h1] at h
      · by_cases h2 : env.metadata_ok = false
        · simp [h1, h2] at h
        · cases hf : env.ffmpeg with
          | notFound => simp [h1, h2, hf] at h
          | ran rc stderr =>
              by_cases h3 : rc = 0
              · simp [h1, h2, hf, h3] at h
                rw [← h, hst]
              · simp [h1, h2, hf, h3] at h

/-- C1: the claim that every segment at index `i > 0` that reaches the merge
loop has a silence clip committed (cursor advanced by `silence_ms`) before
its load outcome is considered is FALSE: the path-existence and duration
pre-checks run before the silence append, so a segment whose file is
missing is skipped with no silence committed.  Concretely, at index 1 with
`segMissing` the cursor does not advance at all. -/
theorem claim_C1_counterexample :
    ¬ ∀ (silence_ms : Nat) (st : MergeState) (i : Nat) (s : Segment),
        0 < i →
        st.position_ms + silence_ms ≤ (mergeStep silence_ms st i s).position_ms := by
  intro h
  have h2 := h 750 initState 1 segMissing (by decide)
  have h3 : (mergeStep 750 initState 1 segMissing).position_ms = 0 := by decide
  have h4 : initState.position_ms = 0 := rfl
  omega

/-- C1 (amended): for every segment at index `i > 0` that passes the
pre-load checks (path present and existing, declared duration valid or
recovered by the re-probe), a silence clip of exactly `silence_ms` is
appended to the timeline and `position_ms` is advanced by `silence_ms`
before the decode outcome is considered, and this silence stays committed
— the cursor is not rolled back — even when the decode then fails and
produces no chapter. -/
theorem claim_C1 (silence_ms : Nat) (st : MergeState) (i : Nat) (s : Segment)
    (hi : 0 < i) (hs : preChecks s = true) :
    (mergeStep silence_ms st i s).timeline =
      st.timeline ++ Clip.silence silence_ms ::
        (match s.decode with | some n => [Clip.audio n] | none => []) ∧
    (mergeStep silence_ms st i s).position_ms =
      st.position_ms + silence_ms + decodeLen s ∧
    (s.decode = none → (mergeStep silence_ms st i s).chapters = st.chapters) := by
  unfold mergeStep
  cases hd : s.decode <;> simp [hs, hi, hd, decodeLen]

/-- Witness for the amended C1: a decode failure at index 1 behind a
committed 750 ms silence clip — the cursor moves from 5000 to 5750 and no
chapter is emitted. -/
theorem claim_C1_witness :
    0 < 1 ∧ preChecks segDecodeFail = true ∧
      ((mergeStep 750 ⟨[Clip.audio 5000], 5000, []⟩ 1 segDecodeFail).timeline =
          [Clip.audio 5000] ++ Clip.silence 750 ::
            (match segDecodeFail.decode with | some n => [Clip.audio n] | none => []) ∧
        (mergeStep 750 ⟨[Clip.audio 5000], 5000, []⟩ 1 segDecodeFail).position_ms =
          5000 + 750 + decodeLen segDecodeFail ∧
        (segDecodeFail.decode = none →
          (mergeStep 750 ⟨[Clip.audio 5000], 5000, []⟩ 1 segDecodeFail).chapters = [])) :=
  ⟨by decide, by decide,
    claim_C1 750 ⟨[Clip.audio 5000], 5000, []⟩ 1 segDecodeFail (by decide) (by decide)⟩

/-- C2: the claim that `assemble_podcast` fails with the AssemblyEmptyError
outcome whenever every segment fails to load is FALSE: with
`[segMissing, segDecodeFail]` all segments fail to load, yet the silence
committed before the failed decode leaves a non-empty timeline, so the
emptiness check passes and the call succeeds with zero chapters (producing
an output file of pure silence). -/
theorem claim_C2_counterexample :
    (∀ s ∈ [segMissing, segDecodeFail], loads s = false) ∧
    ([segMissing, segDecodeFail] : List Segment) ≠ [] ∧
    (assemble_podcast [segMissing, segDecodeFail] 750 goodEnv).1 ≠
      AssembleOutcome.emptyError ∧
    (assemble_podcast [segMissing, segDecodeFail] 750 goodEnv).1 =
      AssembleOutcome.success [] := by
  refine ⟨by decide, by decide, by decide, by decide⟩

/-- C2 (amended): `assemble_podcast` fails with the AssemblyEmptyError
outcome iff the segment list is empty or the assembled timeline has zero
total length — i.e. no segment contributes audio or committed silence.  An
input whose segments all fail to load still succeeds (with zero chapters)
when silence was committed before a failed decode. -/
theorem claim_C2 (segs : List Segment) (silence_ms : Nat) (env : Env) :
    (assemble_podcast segs silence_ms env).1 = AssembleOutcome.emptyError ↔
      (segs = [] ∨ contribSum silence_ms 0 segs = 0) := by
  have hmerge : assembleMerge segs silence_ms = none ↔
      (segs = [] ∨ contribSum silence_ms 0 segs = 0) := by
    unfold assembleMerge
    by_cases he : segs.isEmpty
    · simp [he, List.isEmpty_iff.mp he]
    · have hne : segs ≠ [] := by simpa [List.isEmpty_iff] using he
      simp [he, mergeSegments_timelineLen, hne]
  rw [← hmerge]
  cases h : assembleMerge segs silence_ms with
  | none => simp [assemble_podcast, h]
  | some st =>
      constructor
      · intro hout
        exact absurd hout (assemble_ne_empty segs silence_ms env st h)
      · intro hnone
        cases hnone

/-- C3: for every segment list on which `assemble_podcast` succeeds, the
returned chapter list has exactly one chapter per successfully loaded
segment, never more chapters than input segments, and the chapters appear
in the same relative order as the input segments: the chapter of the
loaded segment at input index `j` sits at chapter index equal to the
number of loaded segments before `j`, with that segment's title — no
placeholder or gap-only entry exists for a skipped segment. -/
theorem claim_C3 (segs : List Segment) (silence_ms : Nat) (env : Env)
    (chs : List Chapter)
    (h : (assemble_podcast segs silence_ms env).1 = AssembleOutcome.success chs) :
    chs.length = (segs.filter (fun s => loads s)).length ∧
    chs.length ≤ segs.length ∧
    ∀ (j : Nat) (hj : j < segs.length), loads (segs.get ⟨j, hj⟩) = true →
      ∃ (pre : List Chapter) (c : Chapter) (post : List Chapter),
        chs = pre ++ c :: post ∧
        pre.length = ((segs.take j).filter (fun s => loads s)).length ∧
        c.title = segTitle j (segs.get ⟨j, hj⟩) := by
  have hch : chs = buildChapters silence_ms 0 0 segs := by
    rw [assemble_success_chapters segs silence_ms env chs h, mergeSegments_chapters]
  subst hch
  refine ⟨buildChapters_length silence_ms segs 0 0, ?_, ?_⟩
  · rw [buildChapters_length]
    exact List.length_filter_le _ _
  · intro j hj hload
    obtain ⟨pre, posj, heq, hlen⟩ := buildChapters_split silence_ms segs 0 0 j hj hload
    exact ⟨pre, _, _, heq, hlen, by simp⟩

/-- Witness for C3: a run where the middle segment's file is missing
produces exactly the two chapters of the loaded segments, in input order. -/
theorem claim_C3_witness :
    (assemble_podcast [segA, segMissing, segB] 750 goodEnv).1 =
      AssembleOutcome.success [⟨"A", 0, 5000⟩, ⟨"B", 5750, 8750⟩] ∧
    (([⟨"A", 0, 5000⟩, ⟨"B", 5750, 8750⟩] : List Chapter).length =
        ([segA, segMissing, segB].filter (fun s => loads s)).length ∧
      ([⟨"A", 0, 5000⟩, ⟨"B", 5750, 8750⟩] : List Chapter).length ≤
        ([segA, segMissing, segB] : List Segment).length ∧
      ∀ (j : Nat) (hj : j < ([segA, segMissing, segB] : List Segment).length),
        loads ([segA, segMissing, segB].get ⟨j, hj⟩) = true →
        ∃ (pre : List Chapter) (c : Chapter) (post : List Chapter),
          ([⟨"A", 0, 5000⟩, ⟨"B", 5750, 8750⟩] : List Chapter) = pre ++ c :: post ∧
          pre.length =
            (([segA, segMissing, segB].take j).filter (fun s => loads s)).length ∧
          c.title = segTitle j ([segA, segMissing, segB].get ⟨j, hj⟩)) :=
  ⟨by decide, claim_C3 [segA, segMissing, segB] 750 goodEnv
    [⟨"A", 0, 5000⟩, ⟨"B", 5750, 8750⟩] (by decide)⟩

/-- C4: for segments at consecutive input indices `j` and `j + 1` that both
load successfully, their chapters are adjacent in the emitted chapter list
(at chapter index equal to the number of loaded segments before `j`), and
the later chapter starts exactly `silence_ms` after the earlier one ends. -/
theorem claim_C4 (segs : List Segment) (silence_ms : Nat) (j : Nat)
    (hj : j + 1 < segs.length)
    (h1 : loads (segs.get ⟨j, Nat.lt_of_succ_lt hj⟩) = true)
    (h2 : loads (segs.get ⟨j + 1, hj⟩) = true) :
    ∃ (pre : List Chapter) (c c' : Chapter) (post : List Chapter),
      (mergeSegments segs silence_ms).chapters = pre ++ c :: c' :: post ∧
      pre.length = ((segs.take j).filter (fun s => loads s)).length ∧
      c'.start_ms = c.end_ms + silence_ms := by
  rw [mergeSegments_chapters]
  obtain ⟨pre, posj, heq, hlen⟩ :=
    buildChapters_split silence_ms segs 0 0 j (Nat.lt_of_succ_lt hj) h1
  have hp : preChecks (segs.get ⟨j + 1, hj⟩) = true := by
    have := h2
    simp [loads, Bool.and_eq_true] at this
    exact this.1
  obtain ⟨n, hd⟩ : ∃ n, (segs.get ⟨j + 1, hj⟩).decode = some n := by
    have := h2
    simp [loads, Bool.and_eq_true, Option.isSome_iff_exists] at this
    exact this.2
  have hdrop : segs.drop (j + 1) = segs.get ⟨j + 1, hj⟩ :: segs.drop (j + 1 + 1) := by
    simp [List.get_eq_getElem]
  rw [heq, hdrop, buildChapters]
  simp only [hp, if_true, hd]
  refine ⟨pre, _, _, _, rfl, hlen, ?_⟩
  simp [gapLen]

/-- Witness for C4: two consecutively loaded segments of 5000 and 3000 ms
with 750 ms silence: the second chapter starts at 5750 = 5000 + 750. -/
theorem claim_C4_witness :
    (0 + 1 < ([segA, segB] : List Segment).length) ∧
    loads segA = true ∧ loads segB = true ∧
    (∃ (pre : List Chapter) (c c' : Chapter) (post : List Chapter),
      (mergeSegments [segA, segB] 750).chapters = pre ++ c :: c' :: post ∧
      pre.length = (([segA, segB].take 0).filter (fun s => loads s)).length ∧
      c'.start_ms = c.end_ms + 750) :=
  ⟨by decide, by decide, by decide,
    claim_C4 [segA, segB] 750 0 (by decide) (by decide) (by decide)⟩

/-- C5: the chapter emitted for every successfully loaded segment has
length `end_ms - start_ms` equal to that segment's actual decoded
duration; the declared `duration_ms` never enters the timing arithmetic
(it is consulted only by the pre-load validation). -/
theorem claim_C5 (segs : List Segment) (silence_ms : Nat) (j : Nat)
    (hj : j < segs.length) (hload : loads (segs.get ⟨j, hj⟩) = true) :
    ∃ (pre : List Chapter) (c : Chapter) (post : List Chapter),
      (mergeSegments segs silence_ms).chapters = pre ++ c :: post ∧
      pre.length = ((segs.take j).filter (fun s => loads s)).length ∧
      c.end_ms = c.start_ms + decodeLen (segs.get ⟨j, hj⟩) ∧
      c.title = segTitle j (segs.get ⟨j, hj⟩) := by
  rw [mergeSegments_chapters]
  obtain ⟨pre, posj, heq, hlen⟩ := buildChapters_split silence_ms segs 0 0 j hj hload
  exact ⟨pre, _, _, heq, hlen, rfl, by simp⟩

/-- Witness for C5: a segment declaring 3000 ms but decoding to 4200 ms
gets a chapter of length 4200 — the decoded duration, not the declared
one. -/
theorem claim_C5_witness :
    (0 < ([segMismatch] : List Segment).length) ∧
    loads segMismatch = true ∧
    segMismatch.duration_ms = some 3000 ∧ decodeLen segMismatch = 4200 ∧
    (∃ (pre : List Chapter) (c : Chapter) (post : List Chapter),
      (mergeSegments [segMismatch] 750).chapters = pre ++ c :: post ∧
      pre.length = (([segMismatch].take 0).filter (fun s => loads s)).length ∧
      c.end_ms = c.start_ms + decodeLen ([segMismatch].get ⟨0, by decide⟩) ∧
      c.title = segTitle 0 ([segMismatch].get ⟨0, by decide⟩)) :=
  ⟨by decide, by decide, by decide, by decide,
    claim_C5 [segMismatch] 750 0 (by decide) (by decide)⟩

/-- C6: the claim that every returned chapter of a succeeding call
satisfies `start_ms < end_ms` is FALSE: a segment that decodes to
zero-length audio (while passing the pre-load checks) yields a chapter
with `start_ms = end_ms` in a run that still succeeds. -/
theorem claim_C6_counterexample :
    (assemble_podcast [segA, segZero] 750 goodEnv).1 =
      AssembleOutcome.success [⟨"A", 0, 5000⟩, ⟨"Z", 5750, 5750⟩] ∧
    ∃ c : Chapter,
      c ∈ [(⟨"A", 0, 5000⟩ : Chapter), ⟨"Z", 5750, 5750⟩] ∧
      ¬ c.start_ms < c.end_ms :=
  ⟨by decide, ⟨"Z", 5750, 5750⟩, by decide, by decide⟩

/-- C6 (amended): every chapter returned by a succeeding call satisfies
`0 ≤ start_ms ≤ end_ms ≤ final timeline length`; the strict inequality
`start_ms < end_ms` can degenerate to equality exactly for a segment that
decodes to zero-length audio. -/
theorem claim_C6 (segs : List Segment) (silence_ms : Nat) (env : Env)
    (chs : List Chapter)
    (h : (assemble_podcast segs silence_ms env).1 = AssembleOutcome.success chs) :
    ∀ c ∈ chs, 0 ≤ c.start_ms ∧ c.start_ms ≤ c.end_ms ∧
      c.end_ms ≤ timelineLen (mergeSegments segs silence_ms).timeline := by
  intro c hc
  have hch : chs = buildChapters silence_ms 0 0 segs := by
    rw [assemble_success_chapters segs silence_ms env chs h, mergeSegments_chapters]
  subst hch
  have hb := buildChapters_bounds silence_ms segs 0 0 c hc
  rw [mergeSegments_timelineLen]
  omega

/-- Witness for the amended C6: the successful two-segment run, whose
chapters all lie within the 8750 ms final timeline. -/
theorem claim_C6_witness :
    (assemble_podcast [segA, segB] 750 goodEnv).1 =
      AssembleOutcome.success [⟨"A", 0, 5000⟩, ⟨"B", 5750, 8750⟩] ∧
    ∀ c ∈ ([⟨"A", 0, 5000⟩, ⟨"B", 5750, 8750⟩] : List Chapter),
      0 ≤ c.start_ms ∧ c.start_ms ≤ c.end_ms ∧
        c.end_ms ≤ timelineLen (mergeSegments [segA, segB] 750).timeline :=
  ⟨by decide, claim_C6 [segA, segB] 750 goodEnv
    [⟨"A", 0, 5000⟩, ⟨"B", 5750, 8750⟩] (by decide)⟩

theorem pyReplace_not_mem_self (s : String) (a b : Char) (hab : b ≠ a) :
    a ∉ (pyReplace s a b).data := by
  intro h
  simp only [pyReplace, List.mem_map] at h
  obtain ⟨y, hy, hfy⟩ := h
  by_cases hya : y = a
  · rw [if_pos hya] at hfy
    exact hab hfy
  · rw [if_neg hya] at hfy
    exact hya hfy

theorem pyReplace_not_mem (s : String) (a b x : Char) (hs : x ∉ s.data)
    (hxb : x ≠ b) : x ∉ (pyReplace s a b).data := by
  intro h
  simp only [pyReplace, List.mem_map] at h
  obtain ⟨y, hy, hfy⟩ := h
  by_cases hya : y = a
  · rw [if_pos hya] at hfy
    exact hxb hfy.symm
  · rw [if_neg hya] at hfy
    exact hs (hfy ▸ hy)

theorem sanitizeTitle_no_special (t : String) :
    '=' ∉ (sanitizeTitle t).data ∧ ';' ∉ (sanitizeTitle t).data ∧
    '#' ∉ (sanitizeTitle t).data ∧ '\\' ∉ (sanitizeTitle t).data ∧
    '\n' ∉ (sanitizeTitle t).data := by
  unfold sanitizeTitle
  refine ⟨?_, ?_, ?_, ?_, ?_⟩
  · apply pyReplace_not_mem _ _ _ _ ?_ (by decide)
    apply pyReplace_not_mem _ _ _ _ ?_ (by decide)
    apply pyReplace_not_mem _ _ _ _ ?_ (by decide)
    apply pyReplace_not_mem _ _ _ _ ?_ (by decide)
    exact pyReplace_not_mem_self _ _ _ (by decide)
  · apply pyReplace_not_mem _ _ _ _ ?_ (by decide)
    apply pyReplace_not_mem _ _ _ _ ?_ (by decide)
    apply pyReplace_not_mem _ _ _ _ ?_ (by decide)
    exact pyReplace_not_mem_self _ _ _ (by decide)
  · apply pyReplace_not_mem _ _ _ _ ?_ (by decide)
    apply pyReplace_not_mem _ _ _ _ ?_ (by decide)
    exact pyReplace_not_mem_self _ _ _ (by decide)
  · apply pyReplace_not_mem _ _ _ _ ?_ (by decide)
    exact pyReplace_not_mem_self _ _ _ (by decide)
  · exact pyReplace_not_mem_self _ _ _ (by decide)

/-- C7: the claim that the emitted chapter titles contain no structurally
significant character — listing path separators among them — is FALSE: the
cleaning chain replaces only `=`, `;`, `#`, backslash and newline, so the
POSIX path separator `/` passes through into the written `title=` line. -/
theorem claim_C7_counterexample :
    (⟨"a/b", 0, 10⟩ : Chapter) ∈ writtenChapters [⟨"a/b", 0, 10⟩] ∧
    sanitizeTitle "a/b" = "a/b" ∧
    '/' ∈ (sanitizeTitle "a/b").data := by
  refine ⟨by decide, by decide, by decide⟩

/-- C7 (amended): for every chapter written to the metadata file, the
emitted title contains none of `=`, `;`, `#`, backslash, newline (each
occurrence having been replaced by a safe substitute; the forward slash
`/` is NOT replaced), and every chapter with `end_ms <= start_ms` is
silently omitted: all written chapters satisfy `start_ms < end_ms`. -/
theorem claim_C7 (chapters : List Chapter) (c : Chapter)
    (hc : c ∈ writtenChapters chapters) :
    ('=' ∉ (sanitizeTitle c.title).data ∧ ';' ∉ (sanitizeTitle c.title).data ∧
      '#' ∉ (sanitizeTitle c.title).data ∧ '\\' ∉ (sanitizeTitle c.title).data ∧
      '\n' ∉ (sanitizeTitle c.title).data) ∧
    c.start_ms < c.end_ms := by
  refine ⟨sanitizeTitle_no_special c.title, ?_⟩
  simp only [writtenChapters, List.mem_filter, decide_eq_true_eq] at hc
  exact hc.2

/-- Witness for the amended C7: a title containing every replaced character
is cleaned in the written chapter block. -/
theorem claim_C7_witness :
    (⟨"a=b;c#d\\e\nf", 2, 10⟩ : Chapter) ∈
      writtenChapters [⟨"a=b;c#d\\e\nf", 2, 10⟩] ∧
    (('=' ∉ (sanitizeTitle (Chapter.title ⟨"a=b;c#d\\e\nf", 2, 10⟩)).data ∧
        ';' ∉ (sanitizeTitle (Chapter.title ⟨"a=b;c#d\\e\nf", 2, 10⟩)).data ∧
        '#' ∉ (sanitizeTitle (Chapter.title ⟨"a=b;c#d\\e\nf", 2, 10⟩)).data ∧
        '\\' ∉ (sanitizeTitle (Chapter.title ⟨"a=b;c#d\\e\nf", 2, 10⟩)).data ∧
        '\n' ∉ (sanitizeTitle (Chapter.title ⟨"a=b;c#d\\e\nf", 2, 10⟩)).data) ∧
      Chapter.start_ms ⟨"a=b;c#d\\e\nf", 2, 10⟩ <
        Chapter.end_ms ⟨"a=b;c#d\\e\nf", 2, 10⟩) :=
  ⟨by decide, claim_C7 [⟨"a=b;c#d\\e\nf", 2, 10⟩] ⟨"a=b;c#d\\e\nf", 2, 10⟩ (by decide)⟩

theorem mem_removeFile (ok : ScratchFile → Bool) (fs : List ScratchFile)
    (f g : ScratchFile) :
    g ∈ removeFile ok fs f ↔ g ∈ fs ∧ (g = f → ok f = false) := by
  unfold removeFile
  by_cases hok : ok f = true
  · simp only [hok, if_true, List.mem_filter, bne_iff_ne]
    constructor
    · rintro ⟨hg, hne⟩
      exact ⟨hg, fun hgf => absurd hgf hne⟩
    · rintro ⟨hg, himp⟩
      refine ⟨hg, fun hgf => ?_⟩
      exact absurd (himp hgf) (by simp [hok])
  · have hok' : ok f = false := by
      simpa using hok
    simp [hok', hok]

theorem mem_removeAll (ok : ScratchFile → Bool) (temps : List ScratchFile) :
    ∀ (fs : List ScratchFile) (g : ScratchFile),
      g ∈ removeAll ok fs temps ↔ g ∈ fs ∧ (g ∈ temps → ok g = false) := by
  induction temps with
  | nil => intro fs g; simp [removeAll]
  | cons t ts ih =>
      intro fs g
      have hstep : removeAll ok fs (t :: ts) = removeAll ok (removeFile ok fs t) ts := rfl
      rw [hstep, ih, mem_removeFile]
      constructor
      · rintro ⟨⟨hg, himp1⟩, himp2⟩
        refine ⟨hg, fun hmem => ?_⟩
        rcases List.mem_cons.mp hmem with rfl | hts
        · exact himp1 rfl
        · exact himp2 hts
      · rintro ⟨hg, himp⟩
        refine ⟨⟨hg, fun hgt => ?_⟩, fun hts => ?_⟩
        · rw [← hgt]
          exact himp (by rw [hgt]; exact List.mem_cons_self t ts)
        · exact himp (List.mem_cons_of_mem t hts)

/-- C8: the claim that a non-zero tool exit deletes any partially written
output file before returning is FALSE: the deletion at lines 248-250 is
only attempted inside `try: os.remove(...) except OSError: pass`, so when
the OS refuses the removal the partial output file survives the failing
call. -/
theorem claim_C8_counterexample :
    (assemble_podcast [segA] 750 stubbornEnv).1 =
      AssembleOutcome.transcodeError "boom" ∧
    ScratchFile.finalOutput ∈ (assemble_podcast [segA] 750 stubbornEnv).2 := by
  refine ⟨by decide, by decide⟩

/-- C8 (amended): once the run reaches the transcode step (merge produced
audio, the export and the metadata write succeeded), the call succeeds iff
the external tool process is found and exits with status zero — a zero
exit with a non-empty diagnostic stream is still success; a non-zero exit
makes the call fail with the tool's diagnostic stream attached, and the
partially written output file is absent whenever the OS permits its
removal (the attempt is wrapped in `except OSError: pass`, so a refused
removal leaves it behind); a missing tool binary yields the distinct
tool-missing outcome. -/
theorem claim_C8 (segs : List Segment) (silence_ms : Nat) (env : Env)
    (hm : assembleMerge segs silence_ms ≠ none)
    (he : env.export_ok = true) (hmd : env.metadata_ok = true) :
    ((∃ e, env.ffmpeg = FfmpegResult.ran 0 e) ↔
      isSuccess (assemble_podcast segs silence_ms env).1 = true) ∧
    (∀ (rc : Int) (e : String), env.ffmpeg = FfmpegResult.ran rc e → rc ≠ 0 →
      (assemble_podcast segs silence_ms env).1 = AssembleOutcome.transcodeError e ∧
      (env.remove_ok ScratchFile.finalOutput = true →
        ScratchFile.finalOutput ∉ (assemble_podcast segs silence_ms env).2)) ∧
    (env.ffmpeg = FfmpegResult.notFound →
      (assemble_podcast segs silence_ms env).1 = AssembleOutcome.toolMissing) := by
  obtain ⟨st, hst⟩ : ∃ st, assembleMerge segs silence_ms = some st := by
    cases h : assembleMerge segs silence_ms with
    | none => exact absurd h hm
    | some st => exact ⟨st, rfl⟩
  refine ⟨⟨?_, ?_⟩, ?_, ?_⟩
  · rintro ⟨e, hf⟩
    simp [assemble_podcast, hst, he, hmd, hf, isSuccess]
  · intro hsucc
    cases hf : env.ffmpeg with
    | notFound => simp [assemble_podcast, hst, he, hmd, hf, isSuccess] at hsucc
    | ran rc e =>
        by_cases h0 : rc = 0
        · subst h0
          exact ⟨e, rfl⟩
        · simp [assemble_podcast, hst, he, hmd, hf, h0, isSuccess] at hsucc
  · intro rc e hf h0
    constructor
    · simp [assemble_podcast, hst, he, hmd, hf, h0]
    · intro hok hmem
      simp [assemble_podcast, hst, he, hmd, hf, h0] at hmem
      rw [mem_removeFile] at hmem
      have hfalse := hmem.2 rfl
      rw [hok] at hfalse
      cases hfalse
  · intro hf
    simp [assemble_podcast, hst, he, hmd, hf]

/-- Witness for the amended C8: a one-segment run, every removal permitted,
whose ffmpeg exits zero while emitting a diagnostic on stderr — still a
success. -/
theorem claim_C8_witness :
    assembleMerge [segA] 750 ≠ none ∧
    (Env.export_ok ⟨true, true, .ran 0 "deprecated option warning", fun _ => true⟩ = true) ∧
    (Env.metadata_ok ⟨true, true, .ran 0 "deprecated option warning", fun _ => true⟩ = true) ∧
    (((∃ e, Env.ffmpeg ⟨true, true, .ran 0 "deprecated option warning", fun _ => true⟩ =
          FfmpegResult.ran 0 e) ↔
        isSuccess (assemble_podcast [segA] 750
          ⟨true, true, .ran 0 "deprecated option warning", fun _ => true⟩).1 = true) ∧
      (∀ (rc : Int) (e : String),
        Env.ffmpeg ⟨true, true, .ran 0 "deprecated option warning", fun _ => true⟩ =
          FfmpegResult.ran rc e → rc ≠ 0 →
        (assemble_podcast [segA] 750
          ⟨true, true, .ran 0 "deprecated option warning", fun _ => true⟩).1 =
            AssembleOutcome.transcodeError e ∧
        (Env.remove_ok ⟨true, true, .ran 0 "deprecated option warning", fun _ => true⟩
            ScratchFile.finalOutput = true →
          ScratchFile.finalOutput ∉ (assemble_podcast [segA] 750
            ⟨true, true, .ran 0 "deprecated option warning", fun _ => true⟩).2)) ∧
      (Env.ffmpeg ⟨true, true, .ran 0 "deprecated option warning", fun _ => true⟩ =
          FfmpegResult.notFound →
        (assemble_podcast [segA] 750
          ⟨true, true, .ran 0 "deprecated option warning", fun _ => true⟩).1 =
            AssembleOutcome.toolMissing)) :=
  ⟨by decide, rfl, rfl,
    claim_C8 [segA] 750 ⟨true, true, .ran 0 "deprecated option warning", fun _ => true⟩
      (by decide) rfl rfl⟩

/-- C9: the claim that every intermediate temporary file the run created
has been deleted before the call returns is FALSE: every cleanup site only
attempts `os.remove` inside `try ... except OSError: pass` (lines 181-183,
196-198, 237-239, 244-250, 255-260), so a file whose removal the OS
refuses survives — here the temporary concatenated mp3 remains in the
scratch directory after a successful call. -/
theorem claim_C9_counterexample :
    isSuccess (assemble_podcast [segA] 750 badRemoveEnv).1 = true ∧
    ScratchFile.concatMp3 ∈ (assemble_podcast [segA] 750 badRemoveEnv).2 := by
  refine ⟨by decide, by decide⟩

/-- C9 (amended): cleanup is attempted on every exit path but is
best-effort, not guaranteed: a removal attempt (wrapped in
`except OSError: pass`) is made for every intermediate temporary file the
run created, so any file of this run remaining in the scratch directory
when the call returns is either the final output of a successful call or a
file whose removal the OS refused; when every attempted removal succeeds,
the scratch directory holds exactly the final output on success and
nothing from this run on failure. -/
theorem claim_C9 (segs : List Segment) (silence_ms : Nat) (env : Env) :
    (∀ f ∈ (assemble_podcast segs silence_ms env).2,
      (f = ScratchFile.finalOutput ∧
        isSuccess (assemble_podcast segs silence_ms env).1 = true) ∨
      env.remove_ok f = false) ∧
    ((∀ f, env.remove_ok f = true) →
      (assemble_podcast segs silence_ms env).2 =
        (if isSuccess (assemble_podcast segs silence_ms env).1 then
          [ScratchFile.finalOutput] else [])) := by
  cases hmm : assembleMerge segs silence_ms with
  | none =>
      have h1eq : (assemble_podcast segs silence_ms env).1 = AssembleOutcome.emptyError := by
        simp [assemble_podcast, hmm]
      have h2eq : (assemble_podcast segs silence_ms env).2 = [] := by
        simp [assemble_podcast, hmm]
      rw [h1eq, h2eq]
      simp [isSuccess]
  | some st =>
      by_cases h1 : env.export_ok = false
      · have h1eq : (assemble_podcast segs silence_ms env).1 =
            AssembleOutcome.exportError := by
          simp [assemble_podcast, hmm, h1]
        have h2eq : (assemble_podcast segs silence_ms env).2 =
            removeAll env.remove_ok [ScratchFile.concatMp3] [ScratchFile.concatMp3] := by
          simp [assemble_podcast, hmm, h1]
        rw [h1eq, h2eq]
        constructor
        · intro f hf
          rw [mem_removeAll] at hf
          exact Or.inr (hf.2 hf.1)
        · intro hall
          simp [removeAll, removeFile, hall, isSuccess]
      · by_cases h2 : env.metadata_ok = false
        · have h1eq : (assemble_podcast segs silence_ms env).1 =
              AssembleOutcome.metadataError := by
            simp [assemble_podcast, hmm, h1, h2]
          have h2eq : (assemble_podcast segs silence_ms env).2 =
              removeAll env.remove_ok
                [ScratchFile.concatMp3, ScratchFile.metadataTxt]
                [ScratchFile.concatMp3, ScratchFile.metadataTxt] := by
            simp [assemble_podcast, hmm, h1, h2]
          rw [h1eq, h2eq]
          constructor
          · intro f hf
            rw [mem_removeAll] at hf
            exact Or.inr (hf.2 hf.1)
          · intro hall
            simp [removeAll, removeFile, hall, isSuccess]
        · cases hf : env.ffmpeg with
          | notFound =>
              have h1eq : (assemble_podcast segs silence_ms env).1 =
                  AssembleOutcome.toolMissing := by
                simp [assemble_podcast, hmm, h1, h2, hf]
              have h2eq : (assemble_podcast segs silence_ms env).2 =
                  removeAll env.remove_ok
                    [ScratchFile.concatMp3, ScratchFile.metadataTxt]
                    [ScratchFile.concatMp3, ScratchFile.metadataTxt] := by
                simp [assemble_podcast, hmm, h1, h2, hf]
              rw [h1eq, h2eq]
              constructor
              · intro f hf2
                rw [mem_removeAll] at hf2
                exact Or.inr (hf2.2 hf2.1)
              · intro hall
                simp [removeAll, removeFile, hall, isSuccess]
          | ran rc e =>
              by_cases h3 : rc = 0
              · have h1eq : (assemble_podcast segs silence_ms env).1 =
                    AssembleOutcome.success st.chapters := by
                  simp [assemble_podcast, hmm, h1, h2, hf, h3]
                have h2eq : (assemble_podcast segs silence_ms env).2 =
                    removeAll env.remove_ok
                      [ScratchFile.concatMp3, ScratchFile.metadataTxt,
                        ScratchFile.finalOutput]
                      [ScratchFile.concatMp3, ScratchFile.metadataTxt] := by
                  simp [assemble_podcast, hmm, h1, h2, hf, h3]
                rw [h1eq, h2eq]
                constructor
                · intro f hf2
                  rw [mem_removeAll] at hf2
                  rcases List.mem_cons.mp hf2.1 with rfl | hrest
                  · exact Or.inr (hf2.2 (by simp))
                  · rcases List.mem_cons.mp hrest with rfl | hrest2
                    · exact Or.inr (hf2.2 (by simp))
                    · rcases List.mem_cons.mp hrest2 with rfl | hnil
                      · exact Or.inl ⟨rfl, rfl⟩
                      · simp at hnil
                · intro hall
                  simp [removeAll, removeFile, hall, isSuccess]
              · have h1eq : (assemble_podcast segs silence_ms env).1 =
                    AssembleOutcome.transcodeError e := by
                  simp [assemble_podcast, hmm, h1, h2, hf, h3]
                have h2eq : (assemble_podcast segs silence_ms env).2 =
                    removeFile env.remove_ok
                      (removeAll env.remove_ok
                        [ScratchFile.concatMp3, ScratchFile.metadataTxt,
                          ScratchFile.finalOutput]
                        [ScratchFile.concatMp3, ScratchFile.metadataTxt])
                      ScratchFile.finalOutput := by
                  simp [assemble_podcast, hmm, h1, h2, hf, h3]
                rw [h1eq, h2eq]
                constructor
                · intro f hf2
                  rw [mem_removeFile, mem_removeAll] at hf2
                  rcases List.mem_cons.mp hf2.1.1 with rfl | hrest
                  · exact Or.inr (hf2.1.2 (by simp))
                  · rcases List.mem_cons.mp hrest with rfl | hrest2
                    · exact Or.inr (hf2.1.2 (by simp))
                    · rcases List.mem_cons.mp hrest2 with rfl | hnil
                      · exact Or.inr (hf2.2 rfl)
                      · simp at hnil
                · intro hall
                  simp [removeAll, removeFile, hall, isSuccess]

/-- C10: the byte sequence of the metadata file embeds the podcast title
verbatim on the global `title=` line — no sanitization at all, so `=`,
`;`, `#` and newlines in the podcast title pass through unmodified (unlike
per-chapter titles, which go through the cleaning chain). -/
theorem claim_C10 (chapters : List Chapter) (podcast_title : String) :
    (metadataContent chapters podcast_title).data =
      ";FFMETADATA1\ntitle=".data ++ podcast_title.data ++
        ("\nartist=Generated Podcast Bot\n\n[METADATA]\ntimebase=1/1000\n\n" ++
          String.join ((writtenChapters chapters).map chapterBlock)).data := by
  simp [metadataContent, String.data_append]

end AudioProcessor
